import Mathlib

/-!
Verification of the system-context / when_any slice of the stdexec repository.

The C++ source embedded here is `src/include/exec/system_context.hpp` (the
`exec` namespace): the boundary decoder `__detail::__pass_to_receiver`, the
`system_sender` operation state with its `connect`/`start` protocol, the
`system_bulk_sender` completion pipeline, `system_scheduler::operator==`,
`system_context::get_scheduler` and `system_context::max_concurrency`.
The racing combinator `exec::when_any` is exercised by the repository's tests
but its implementation file is not part of the source slice, so it is modelled
from the specification's description of the racing-set state machine.

Effects are made explicit: a receiver completion is an element of `RCall`
(which channel fired, with which payload), and the sequence of completion
invocations a code path performs on a receiver is returned as a `List RCall`
in source order.  Calls made through the dynamically dispatched scheduler
interface are likewise reified as a `List SchedulerIfaceCall`.  Pointers
(scheduler-interface pointers, operation-state addresses) are modelled as
natural numbers: the code only ever copies and compares them.
-/

namespace Exec

/-- A completion invocation performed on a receiver: exactly which of the
three channels fired, and the payload it carried.  `ν` is the type of the
value-channel payload (for the type-erased boundary of
`system_context.hpp` this is `Unit`, because `stdexec::set_value(recv)` is
called with no arguments), `ε` the type of the error payload
(`std::exception_ptr` in the source). -/
inductive RCall (ν : Type) (ε : Type) where
  | setValue (v : ν)
  | setStopped
  | setError (e : ε)
deriving DecidableEq

/-- Embedding of `exec::__detail::__pass_to_receiver(int, void*, __R&&)`
(`src/include/exec/system_context.hpp`, lines 24-35).  The returned list is
the sequence of completion invocations the function performs on the receiver
`__recv`: discriminant `0` calls `stdexec::set_value(recv)` (no arguments),
`1` calls `stdexec::set_stopped(recv)`, `2` calls `stdexec::set_error(recv, e)`
where `e` is the `std::exception_ptr` reinterpreted from the payload pointer,
and any other discriminant falls through every branch and performs no call. -/
def __pass_to_receiver (ε : Type) (__completion_type : Int) (__exception : ε) :
    List (RCall Unit ε) :=
  if __completion_type = 0 then [RCall.setValue ()]
  else if __completion_type = 1 then [RCall.setStopped]
  else if __completion_type = 2 then [RCall.setError __exception]
  else []

/-- A completion arriving at the type-erased boundary: which channel, and the
error payload when the channel is the error channel.  The value channel
carries no payload at this boundary (the spec: value payload, if any, is
carried out-of-band and is not observed by the type-erased path). -/
inductive BoundaryCompletion (ε : Type) where
  | value
  | cancelled
  | error (e : ε)
deriving DecidableEq

/-- The specification's encoding table for completions crossing the boundary:
the integer discriminant `0 = value, 1 = cancelled, 2 = error` plus the
payload pointer (meaningful only on the error channel; `junk` stands for the
arbitrary pointer value passed alongside the other two channels). -/
def encode_completion_spec (ε : Type) (junk : ε) :
    BoundaryCompletion ε → Int × ε
  | BoundaryCompletion.value => (0, junk)
  | BoundaryCompletion.cancelled => (1, junk)
  | BoundaryCompletion.error e => (2, e)

/-- The receiver invocation that matches a boundary completion: `value` maps
to the `set_value` channel, `cancelled` to `set_stopped`, `error e` to
`set_error` with the same payload. -/
def matching_call (ε : Type) : BoundaryCompletion ε → RCall Unit ε
  | BoundaryCompletion.value => RCall.setValue ()
  | BoundaryCompletion.cancelled => RCall.setStopped
  | BoundaryCompletion.error e => RCall.setError e

/-- A call made through the dynamically dispatched scheduler interface
(`__exec_system_scheduler_interface`): `__schedule(self, callback, data)`
carries the interface pointer and the callback-context pointer (the address
of the operation state), `__bulk_schedule(self, cb, fn, state, size)` carries
the interface pointer, the shared-state address and the chunk count. -/
inductive SchedulerIfaceCall where
  | schedule (self : Nat) (data : Nat)
  | bulk_schedule (self : Nat) (state : Nat) (size : Nat)
deriving DecidableEq

/-- Embedding of `exec::system_sender`
(`src/include/exec/system_context.hpp`, lines 125-188): it stores only the
scheduler-interface pointer `__scheduler_`. -/
structure system_sender where
  __scheduler_ : Nat
deriving DecidableEq

/-- Embedding of `exec::system_sender::__op` (lines 142-169): the operation
state stores the moved-in receiver `__recv_` and the scheduler-interface
pointer `__scheduler_`. -/
structure __op (R : Type) where
  __recv_ : R
  __scheduler_ : Nat

/-- Embedding of `tag_invoke(stdexec::connect_t, system_sender&&, __R&&)`
(lines 171-178): it constructs the operation state from the receiver and the
sender's scheduler pointer.  The second component is the sequence of
scheduler-interface calls this makes - the body is a plain aggregate
construction, so that sequence is empty. -/
def connect (R : Type) (self : system_sender) (r : R) :
    __op R × List SchedulerIfaceCall :=
  ({ __recv_ := r, __scheduler_ := self.__scheduler_ }, [])

/-- Embedding of `tag_invoke(stdexec::start_t, __op&)` (lines 155-158): the
single statement is
`__self.__scheduler_->__schedule(__self.__scheduler_, __cb, &__self)`;
`selfAddr` is the operation state's own address `&__self`. -/
def start (R : Type) (self : __op R) (selfAddr : Nat) :
    List SchedulerIfaceCall :=
  [SchedulerIfaceCall.schedule self.__scheduler_ selfAddr]

/-- Embedding of `exec::system_bulk_sender` (lines 310-362) with the
previous sender fixed to the `system_sender` produced by
`stdexec::schedule` on the system scheduler (the shape
`bulk(schedule(sched), size, fn)` used throughout the repository); the bulk
function `__fun_` is carried separately where the completion path needs it. -/
structure system_bulk_sender where
  __scheduler_ : Nat
  __previous_ : system_sender
  __size_ : Nat
deriving DecidableEq

/-- Embedding of `tag_invoke(stdexec::connect_t, system_bulk_sender&&, __R&&)`
(lines 334-346): it builds the `__bulk_op` whose inner operation state is
`stdexec::connect(previous, __bulk_intermediate_receiver{state})`.  Neither
the outer construction nor the inner `connect` makes any call through the
scheduler interface, so the returned call sequence is empty.  The
intermediate receiver is only an alias for the shared state, so the inner
operation state is the `__op` of the previous `system_sender`. -/
def bulk_connect (R : Type) (self : system_bulk_sender) (__r : R) :
    __op Unit × List SchedulerIfaceCall :=
  ((connect Unit self.__previous_ ()).1, (connect Unit self.__previous_ ()).2)

/-- Embedding of `tag_invoke(stdexec::start_t, __bulk_op&)` (lines 296-301):
it only starts the previous operation state
(`stdexec::start(__self.__previous_operation_state_)`); the bulk fan-out is
triggered later, when the previous sender completes.  `innerAddr` is the
address of the inner operation state. -/
def bulk_start (innerOp : __op Unit) (innerAddr : Nat) :
    List SchedulerIfaceCall :=
  start Unit innerOp innerAddr

/-- A completion of the inner (previous) sender of a bulk operation, as seen
by `__bulk_intermediate_receiver`: a value completion with arguments of type
`α`, a stopped completion, or an error completion carrying `ε`. -/
inductive InnerCompletion (α : Type) (ε : Type) where
  | value (a : α)
  | stopped
  | error (e : ε)
deriving DecidableEq

/-- Embedding of the completion pipeline of `__bulk_intermediate_receiver`
(`src/include/exec/system_context.hpp`, lines 202-269), one case per channel
of the inner completion.  The first component is the fan-out: the list of
invocations `__fun_(idx, args...)` performed by `__type_erased_fn`, in index
order, each observing the arguments stored in `__arguments_data_`.  The
second component is the sequence of completion invocations ultimately
performed on the connected receiver `__recv_`.
Value case (lines 214-240): the arguments are stored in the shared state and
`__bulk_schedule(scheduler, __cb, fn, &state, size)` is issued; the engine
runs `fn` for every index in `[0, size)` and then invokes `__cb` (lines
263-268) with discriminant 0, which frees the stored arguments and calls
`__pass_to_receiver(0, _, recv)` - note: `set_value(recv)` with no values.
Stopped case (lines 242-246): frees the (null) stored arguments and calls
`stdexec::set_stopped(recv)`; no `__bulk_schedule` is issued.
Error case (lines 248-255): frees the (null) stored arguments and calls
`stdexec::set_error(recv, ptr)` with the same `exception_ptr`; no
`__bulk_schedule` is issued. -/
def bulk_on_inner_completion (α β ε : Type) (__fun_ : Nat → α → β)
    (__size_ : Nat) (junk : ε) :
    InnerCompletion α ε → List β × List (RCall Unit ε)
  | InnerCompletion.value a =>
      ((List.range __size_).map (fun i => __fun_ i a),
        __pass_to_receiver ε 0 junk)
  | InnerCompletion.stopped => ([], [RCall.setStopped])
  | InnerCompletion.error e => ([], [RCall.setError e])

/-- Embedding of `exec::system_scheduler` (lines 67-102): it stores only the
scheduler-interface pointer `__scheduler_`. -/
structure system_scheduler where
  __scheduler_ : Nat
deriving DecidableEq

/-- Embedding of `system_scheduler::operator==` (lines 71-74): the body is
`return __scheduler_ == __rhs.__scheduler_;`, a comparison of the wrapped
scheduler-interface pointers. -/
def system_scheduler.eq (self __rhs : system_scheduler) : Bool :=
  self.__scheduler_ == __rhs.__scheduler_

/-- Modelled from the spec: the default system-context implementation lives
in `__detail/__system_context_default_impl.hpp`, which is not part of the
source slice.  Per the spec, the process-wide "current implementation" slot
holds a single reference engine, so
`__system_context_default_impl::__get_exec_system_context_impl()` returns
one process-wide engine-instance pointer, modelled as a fixed address. -/
def __get_exec_system_context_impl : Nat := 1

/-- Embedding of `exec::system_context` (lines 44-64): it stores the
implementation pointer `__impl_`; `addr` is the address of the context
object itself, recording that two constructed contexts are distinct
objects. -/
structure system_context where
  addr : Nat
  __impl_ : Nat
deriving DecidableEq

/-- Embedding of the `system_context` constructor (lines 364-367): it sets
`__impl_ = __system_context_default_impl::__get_exec_system_context_impl()`,
the process-wide default implementation. -/
def system_context.mk_default (addr : Nat) : system_context :=
  { addr := addr, __impl_ := __get_exec_system_context_impl }

/-- Modelled from the spec: `__impl_->__get_scheduler(__impl_)` is provided
by the implementation header that is not part of the source slice.  Per the
spec the scheduler interface is the engine's own dispatch table, a function
of the engine instance alone, modelled as the identity on the engine
pointer. -/
def __get_scheduler (impl : Nat) : Nat := impl

/-- Embedding of `system_context::get_scheduler` (lines 369-371): it returns
`system_scheduler{__impl_->__get_scheduler(__impl_)}`. -/
def system_context.get_scheduler (self : system_context) : system_scheduler :=
  { __scheduler_ := __get_scheduler self.__impl_ }

/-- Embedding of `system_context::max_concurrency` (lines 373-375): the body
is `return std::thread::hardware_concurrency();`.
`hardware_concurrency` is the environment-supplied value of
`std::thread::hardware_concurrency()`, which may be `0` when the hardware
concurrency is not computable; the stored `__impl_` pointer never appears in
the body. -/
def system_context.max_concurrency (hardware_concurrency : Nat)
    (_self : system_context) : Nat :=
  hardware_concurrency

/-- A terminal completion of one child of the racing combinator: a value of
type `α`, an error of type `ε`, or cancelled. -/
inductive Completion (α : Type) (ε : Type) where
  | value (a : α)
  | error (e : ε)
  | cancelled
deriving DecidableEq

/-- Modelled from the spec: the racing-set state of `exec::when_any`, whose
implementation header is not part of the source slice (only its tests are).
Per the spec it holds an atomic "winner decided" flag with a slot for the
winning completion's payload (`winner`), the count-down of outstanding
children (`outstanding`), and we record the completion delivered to the
parent consumer, if any (`delivered`). -/
structure RacingState (α : Type) (ε : Type) where
  winner : Option (Completion α ε)
  outstanding : Nat
  delivered : Option (Completion α ε)
deriving DecidableEq

/-- The first-decided winner: an already-decided winner stays, otherwise the
first arriving completion wins. -/
def first_winner (α ε : Type) (w : Option (Completion α ε))
    (evs : List (Completion α ε)) : Option (Completion α ε) :=
  match w with
  | some w0 => some w0
  | none => List.head? evs

/-- Modelled from the spec: processing one child's terminal completion in the
racing combinator.  The first child to reach any completion is declared the
winner via a compare-and-set on the winner flag (only the winning child
records its payload; later completions are disregarded); the outstanding
count is decremented; the decrementer that observes "last child" delivers
the decided winner to the parent consumer. -/
def racing_step (α ε : Type) (s : RacingState α ε) (c : Completion α ε) :
    RacingState α ε :=
  let w := match s.winner with
    | none => some c
    | some w0 => some w0
  let o := s.outstanding - 1
  { winner := w, outstanding := o,
    delivered := if o = 0 then w else s.delivered }

/-- Modelled from the spec: the initial racing-set state for `k` started
children - no winner decided, `k` outstanding children, nothing delivered. -/
def racing_init (α ε : Type) (k : Nat) : RacingState α ε :=
  { winner := none, outstanding := k, delivered := none }

/-- Modelled from the spec: a complete run of `when_any` over `k` children,
given the sequence `evs` of child terminal completions in arrival order
(every child reaches a terminal state - a child that never completes on its
own is cancelled cooperatively and then completes on the cancelled
channel). -/
def when_any_run (α ε : Type) (k : Nat) (evs : List (Completion α ε)) :
    RacingState α ε :=
  evs.foldl (racing_step α ε) (racing_init α ε k)

/-- Folding the racing step leaves the winner slot at the first decided
winner: an already-recorded winner is never overwritten, and otherwise the
first arriving completion is recorded. -/
lemma racing_foldl_winner (α ε : Type) (evs : List (Completion α ε))
    (s : RacingState α ε) :
    (evs.foldl (racing_step α ε) s).winner = first_winner α ε s.winner evs := by
  induction evs generalizing s with
  | nil =>
      cases hw : s.winner <;> simp [first_winner, hw]
  | cons c rest ih =>
      rw [List.foldl_cons, ih]
      cases hw : s.winner <;> simp [racing_step, first_winner, hw]

/-- Folding the racing step decrements the outstanding count once per
processed child completion. -/
lemma racing_foldl_outstanding (α ε : Type) (evs : List (Completion α ε))
    (s : RacingState α ε) :
    (evs.foldl (racing_step α ε) s).outstanding
      = s.outstanding - evs.length := by
  induction evs generalizing s with
  | nil => simp
  | cons c rest ih =>
      rw [List.foldl_cons, ih]
      simp [racing_step]
      omega

/-- While fewer completions have been processed than there are outstanding
children, nothing new is delivered to the parent consumer. -/
lemma racing_foldl_delivered_of_lt (α ε : Type) (evs : List (Completion α ε))
    (s : RacingState α ε) (h : evs.length < s.outstanding) :
    (evs.foldl (racing_step α ε) s).delivered = s.delivered := by
  induction evs generalizing s with
  | nil => rfl
  | cons c rest ih =>
      rw [List.foldl_cons]
      have h1 : ¬ (s.outstanding - 1 = 0) := by
        simp only [List.length_cons] at h
        omega
      have h2 : rest.length < (racing_step α ε s c).outstanding := by
        simp only [racing_step, List.length_cons] at h ⊢
        omega
      rw [ih (racing_step α ε s c) h2]
      simp [racing_step, h1]

/-- When the processed completions exactly exhaust the outstanding children,
the last decrementer delivers the first decided winner to the parent
consumer. -/
lemma racing_foldl_delivered_of_eq (α ε : Type) (evs : List (Completion α ε))
    (s : RacingState α ε) (hpos : 0 < s.outstanding)
    (hlen : evs.length = s.outstanding) :
    (evs.foldl (racing_step α ε) s).delivered
      = first_winner α ε s.winner evs := by
  induction evs generalizing s with
  | nil =>
      simp only [List.length_nil] at hlen
      omega
  | cons c rest ih =>
      rw [List.foldl_cons]
      cases rest with
      | nil =>
          simp only [List.length_cons, List.length_nil] at hlen
          have h0 : s.outstanding - 1 = 0 := by omega
          cases hw : s.winner <;>
            simp [racing_step, first_winner, hw, h0]
      | cons r rs =>
          have hpos2 : 0 < (racing_step α ε s c).outstanding := by
            simp only [racing_step, List.length_cons] at hlen ⊢
            omega
          have hlen2 : (r :: rs).length = (racing_step α ε s c).outstanding := by
            simp only [racing_step, List.length_cons] at hlen ⊢
            omega
          rw [ih (racing_step α ε s c) hpos2 hlen2]
          cases hw : s.winner <;>
            simp [racing_step, first_winner, hw]

/-- Claim C1: encoding any completion as the integer discriminant
(0 = value, 1 = cancelled, 2 = error) plus the opaque payload and decoding it
through `__pass_to_receiver` invokes exactly the matching channel on the
receiver - `set_value` for 0, `set_stopped` for 1, `set_error` with the
exception-pointer payload for 2 - and nothing else: the round-trip law. -/
theorem pass_to_receiver_roundtrip (ε : Type) (junk : ε)
    (c : BoundaryCompletion ε) :
    __pass_to_receiver ε (encode_completion_spec ε junk c).1
        (encode_completion_spec ε junk c).2
      = [matching_call ε c] := by
  cases c <;> rfl

/-- Claim C9: for every integer discriminant outside `{0, 1, 2}`,
`__pass_to_receiver` falls through all three branches, invokes no completion
channel on the receiver at all, and returns normally: the completion is
silently dropped, so exactly-one-channel-fires fails for an engine that
delivers a malformed discriminant. -/
theorem pass_to_receiver_unknown_discriminant (ε : Type)
    (__completion_type : Int) (__exception : ε)
    (h0 : __completion_type ≠ 0) (h1 : __completion_type ≠ 1)
    (h2 : __completion_type ≠ 2) :
    __pass_to_receiver ε __completion_type __exception = [] := by
  simp [__pass_to_receiver, h0, h1, h2]

/-- Witness for claim C9 at the concrete malformed discriminant `3`. -/
theorem pass_to_receiver_unknown_discriminant_witness :
    __pass_to_receiver Nat 3 0 = [] :=
  pass_to_receiver_unknown_discriminant Nat 3 0 (by decide) (by decide)
    (by decide)

/-- Claim C2: connecting a system sender (schedule or bulk) to a receiver
begins no work - it performs no call through the scheduler interface - and
the single `__schedule` call happens in `stdexec::start` on the resulting
operation state, exactly once (the emitted call list is a singleton), with
the operation state's own address as the callback context. -/
theorem connect_no_work_start_schedules_once (R : Type) (snd : system_sender)
    (r : R) (addr : Nat) (bsnd : system_bulk_sender) (r2 : R)
    (innerAddr : Nat) :
    (connect R snd r).2 = []
      ∧ start R (connect R snd r).1 addr
          = [SchedulerIfaceCall.schedule snd.__scheduler_ addr]
      ∧ (bulk_connect R bsnd r2).2 = []
      ∧ bulk_start (bulk_connect R bsnd r2).1 innerAddr
          = [SchedulerIfaceCall.schedule bsnd.__previous_.__scheduler_
              innerAddr] := by
  exact ⟨rfl, rfl, rfl, rfl⟩

/-- Claim C3 (evaluation at the failing input): for an inner task completing
with value `42` and `count = 3`, every fan-out invocation of `fn` observes
`42`, but the bulk sender's overall completion is `set_value()` with no
payload - identical to the completion produced when the inner value was `7` -
so the completion does not carry the inner task's values: the bulk sender's
completion signature is `set_value_t()` and `__cb` routes through
`__pass_to_receiver`, which passes no values. -/
theorem bulk_value_completion_drops_values :
    bulk_on_inner_completion Nat (Nat × Nat) Nat
        (fun i a => (i, a)) 3 0 (InnerCompletion.value 42)
      = ([(0, 42), (1, 42), (2, 42)], [RCall.setValue ()])
    ∧ (bulk_on_inner_completion Nat (Nat × Nat) Nat
        (fun i a => (i, a)) 3 0 (InnerCompletion.value 42)).2
      = (bulk_on_inner_completion Nat (Nat × Nat) Nat
        (fun i a => (i, a)) 3 0 (InnerCompletion.value 7)).2 := by
  exact ⟨by decide, by decide⟩

/-- Claim C7: when the inner task of a bulk operation completes with stopped
or with an error, no fan-out invocation of the bulk function occurs (the
fan-out list is empty: `__bulk_schedule` is never issued) and the bulk
sender forwards the same completion - same channel, and for the error case
the same `exception_ptr` payload - directly to its receiver. -/
theorem bulk_forwards_stopped_and_error (α β ε : Type)
    (__fun_ : Nat → α → β) (__size_ : Nat) (junk : ε) (e : ε) :
    bulk_on_inner_completion α β ε __fun_ __size_ junk
        InnerCompletion.stopped = ([], [RCall.setStopped])
      ∧ bulk_on_inner_completion α β ε __fun_ __size_ junk
          (InnerCompletion.error e) = ([], [RCall.setError e]) := by
  exact ⟨rfl, rfl⟩

/-- Claim C4: in `when_any(A, B)` where A never completes on its own and B
completes with value 42, B's completion arrives first (A reaches its
terminal state only through cooperative cancellation, after the race is
decided), so the arrival order is value-then-cancelled and the overall
delivered result is value 42.  The symmetric case - A completes with a value
`v` and B never does - is the same arrival order with the roles swapped, so
the delivered result is A's value `v`. -/
theorem when_any_first_completion_wins (v : Nat) :
    (when_any_run Nat Unit 2
        [Completion.value 42, Completion.cancelled]).delivered
      = some (Completion.value 42)
    ∧ (when_any_run Nat Unit 2
        [Completion.value v, Completion.cancelled]).delivered
      = some (Completion.value v) := by
  exact ⟨rfl, rfl⟩

/-- Claim C5: the racing combinator delivers its overall completion to the
parent consumer exactly when all `k` child operation states have reached
their terminal state (first conjunct), at which point no child is
outstanding (second conjunct); and transitively for nesting: if an inner
`when_any` over `k` children delivered completion `c`, and an outer
`when_any` over `k2` children - one of whose child completions is `c` - has
delivered, then both races saw every one of their children reach a terminal
state, so no in-flight grandchild operation state is outstanding either
(third conjunct). -/
theorem when_any_delivered_after_all_children (α ε : Type) (k : Nat)
    (evs : List (Completion α ε)) (hle : evs.length ≤ k) (k2 : Nat)
    (pre post : List (Completion α ε)) (c : Completion α ε)
    (hle2 : pre.length + 1 + post.length ≤ k2) :
    ((when_any_run α ε k evs).delivered.isSome
        ↔ (0 < k ∧ evs.length = k))
      ∧ ((when_any_run α ε k evs).delivered.isSome
          → (when_any_run α ε k evs).outstanding = 0)
      ∧ ((when_any_run α ε k evs).delivered = some c
          → (when_any_run α ε k2 (pre ++ c :: post)).delivered.isSome
          → evs.length = k ∧ pre.length + 1 + post.length = k2) := by
  have key : ∀ (k' : Nat) (evs' : List (Completion α ε)), evs'.length ≤ k' →
      ((when_any_run α ε k' evs').delivered.isSome
        ↔ (0 < k' ∧ evs'.length = k')) := by
    intro k' evs' hle'
    constructor
    · intro hsome
      by_contra hcon
      rcases Nat.lt_or_ge evs'.length k' with hlt | hge
      · have hnone := racing_foldl_delivered_of_lt α ε evs'
          (racing_init α ε k') (by simpa [racing_init] using hlt)
        rw [when_any_run, hnone] at hsome
        simp [racing_init] at hsome
      · have heq : evs'.length = k' := Nat.le_antisymm hle' hge
        rcases Nat.eq_zero_or_pos k' with hz | hp
        · subst hz
          have hnil : evs' = [] := List.length_eq_zero.mp heq
          subst hnil
          simp [when_any_run, racing_init] at hsome
        · exact hcon ⟨hp, heq⟩
    · rintro ⟨hp, heq⟩
      have hdel := racing_foldl_delivered_of_eq α ε evs'
        (racing_init α ε k') (by simpa [racing_init] using hp)
        (by simpa [racing_init] using heq)
      rw [when_any_run, hdel]
      have hne : evs' ≠ [] := by
        intro hnil
        subst hnil
        simp at heq
        omega
      rcases List.exists_cons_of_ne_nil hne with ⟨h0, t0, hcons⟩
      subst hcons
      simp [first_winner, racing_init]
  refine ⟨key k evs hle, ?_, ?_⟩
  · intro hsome
    have heq := ((key k evs hle).mp hsome).2
    rw [when_any_run, racing_foldl_outstanding]
    simp [racing_init, heq]
  · intro hdel houter
    have hsome : (when_any_run α ε k evs).delivered.isSome := by
      rw [hdel]; rfl
    have h1 := ((key k evs hle).mp hsome).2
    have hlen2 : (pre ++ c :: post).length = pre.length + 1 + post.length := by
      simp
      omega
    have h2 := ((key k2 (pre ++ c :: post)
      (by rw [hlen2]; exact hle2)).mp houter).2
    rw [hlen2] at h2
    exact ⟨h1, h2⟩

/-- Witness for claim C5: an inner race over two children delivering
value 1, fed as one of the two child completions of an outer race. -/
theorem when_any_delivered_after_all_children_witness :
    ((when_any_run Nat Nat 2
        [Completion.value 1, Completion.cancelled]).delivered.isSome
      ↔ (0 < 2
          ∧ List.length
              ([Completion.value 1, Completion.cancelled]
                : List (Completion Nat Nat)) = 2))
    ∧ ((when_any_run Nat Nat 2
          [Completion.value 1, Completion.cancelled]).delivered.isSome
        → (when_any_run Nat Nat 2
            [Completion.value 1, Completion.cancelled]).outstanding = 0)
    ∧ ((when_any_run Nat Nat 2
          [Completion.value 1, Completion.cancelled]).delivered
            = some (Completion.value 1)
        → Option.isSome
            (when_any_run Nat Nat 2
              ([] ++ Completion.value 1 :: [Completion.cancelled])).delivered
        → List.length
            ([Completion.value 1, Completion.cancelled]
              : List (Completion Nat Nat)) = 2
          ∧ List.length ([] : List (Completion Nat Nat)) + 1
              + List.length
                  ([Completion.cancelled] : List (Completion Nat Nat)) = 2) :=
  when_any_delivered_after_all_children Nat Nat 2
    [Completion.value 1, Completion.cancelled] (by decide) 2
    [] [Completion.cancelled] (Completion.value 1) (by decide)

/-- Claim C6: if all children of the racing combinator complete on the
cancelled channel (every arriving child completion is `cancelled`), the
combinator delivers `cancelled` to the parent consumer - not a value and not
an error; in particular `when_any` of two already-cancelled tasks completes
with cancelled. -/
theorem when_any_all_cancelled (α ε : Type) (k : Nat)
    (evs : List (Completion α ε)) (hpos : 0 < k) (hlen : evs.length = k)
    (hall : ∀ c ∈ evs, c = Completion.cancelled) :
    (when_any_run α ε k evs).delivered = some Completion.cancelled := by
  have hdel := racing_foldl_delivered_of_eq α ε evs (racing_init α ε k)
    (by simpa [racing_init] using hpos) (by simpa [racing_init] using hlen)
  rw [when_any_run, hdel]
  have hne : evs ≠ [] := by
    intro hnil
    subst hnil
    simp at hlen
    omega
  rcases List.exists_cons_of_ne_nil hne with ⟨h0, t0, hcons⟩
  subst hcons
  have hh : h0 = Completion.cancelled := hall h0 (List.mem_cons_self h0 t0)
  simp [first_winner, racing_init, hh]

/-- Witness for claim C6: the race of two already-cancelled children. -/
theorem when_any_all_cancelled_witness :
    (when_any_run Nat Nat 2
        [Completion.cancelled, Completion.cancelled]).delivered
      = some Completion.cancelled :=
  when_any_all_cancelled Nat Nat 2
    [Completion.cancelled, Completion.cancelled] (by decide) (by decide)
    (by decide)

/-- Claim C8: `system_scheduler::operator==` returns true exactly when the
two handles wrap the same scheduler-interface pointer, i.e. refer to the
same underlying engine (first conjunct); two handles obtained from the same
`system_context` compare equal (second conjunct); and with the reference
engine - whose process-wide default implementation is a singleton - handles
obtained from two distinct `system_context` objects also compare equal
(third conjunct). -/
theorem scheduler_eq_iff_same_interface (a b : system_scheduler)
    (c : system_context) (a1 a2 : Nat) :
    (system_scheduler.eq a b = true ↔ a.__scheduler_ = b.__scheduler_)
      ∧ system_scheduler.eq (system_context.get_scheduler c)
          (system_context.get_scheduler c) = true
      ∧ system_scheduler.eq
          (system_context.get_scheduler (system_context.mk_default a1))
          (system_context.get_scheduler (system_context.mk_default a2))
            = true := by
  refine ⟨?_, ?_, ?_⟩
  · simp [system_scheduler.eq]
  · simp [system_scheduler.eq]
  · simp [system_scheduler.eq, system_context.get_scheduler,
      system_context.mk_default]

/-- Claim C10: `system_context::max_concurrency` always returns the
environment's `std::thread::hardware_concurrency()` value, for every stored
implementation pointer (the result is the same for any two contexts, however
their process-wide implementation slots were registered), and in particular
returns 0 when the hardware concurrency is unknown (reported as 0). -/
theorem max_concurrency_ignores_impl (hc : Nat) (c c' : system_context) :
    system_context.max_concurrency hc c = hc
      ∧ system_context.max_concurrency hc c
          = system_context.max_concurrency hc c'
      ∧ system_context.max_concurrency 0 c = 0 := by
  exact ⟨rfl, rfl, rfl⟩

end Exec
